import Mathlib

/-!
Shallow embedding of the `variant` class of foonathan/storage
(`src/variant.hpp`, `src/detail/variant_helper.hpp`, `src/raw_storage.hpp`).

Modelling conventions
* An alternative set with `n` alternatives is identified by `n`; alternative
  values of every alternative are drawn from `Nat` (value semantics); the
  per-alternative special member functions (`operator==`, `std::hash`,
  capability flags such as `is_nothrow_move_constructible`) are parameters,
  one family indexed by the alternative's position.
* `Variant` models the two data members of `class variant`: `storage_`
  (the raw aligned region, abstracted to the live object it currently holds:
  `some (i, v)` = a live object of alternative `i` with value `v`, `none` =
  no live object) and `which_` (the tag; `n` is `invalid_index`).
* An exception propagating out of an alternative's constructor or assignment
  operator is modelled by `Option`: a constructor-from-arguments is an
  `Option Nat` (`none` = it throws), and every mutating operation reports in
  `OpResult` whether it completed (`ok`), the resulting state, and the
  destructor invocations it performed (for the side-effect-counting claims).
* Moves are modelled with value semantics (a moved-from object keeps its type
  and some valid value; the moved-to object receives the source's value).
-/

namespace FStorage

/-- Observable side effects of a variant operation: `destroy i` records that
the destructor of the held object of alternative `i` was invoked
(`detail::variant_destroy_visitor`). -/
inductive Event where
  | destroy (i : Nat) : Event
deriving DecidableEq, Repr

/-- The state of `class variant<Types...>`: the raw storage region
(abstracted to the live object it holds, if any) and the tag `which_`. -/
structure Variant where
  storage : Option (Nat × Nat)
  which_ : Nat
deriving DecidableEq, Repr

/-- The value of the live object in storage (`get<T>(var.storage_)`);
meaningful only when a live object is present. -/
def heldVal (v : Variant) : Nat :=
  (v.storage.map Prod.snd).getD 0

/-- The variant invariant (spec section 3): `which_ = n` exactly when storage
holds no live object; `which_ = i < n` exactly when storage holds one live
object of alternative `i`. -/
abbrev Inv (n : Nat) (v : Variant) : Prop :=
  (v.which_ = n ∧ v.storage = none) ∨
  (v.which_ < n ∧ v.storage = some (v.which_, heldVal v))

/-- Result of a mutating variant operation: whether it returned normally
(`ok = true`) or an exception propagated out of an alternative's member
function (`ok = false`), the final state, and the destructor calls made. -/
structure OpResult where
  ok : Bool
  state : Variant
  events : List Event
deriving DecidableEq, Repr

/-- `detail::get_index_t<T, Types...>` (variant_helper.hpp lines 29-48),
with types coded as naturals: position of the first occurrence of `t`,
or the length of the list when `t` does not occur. -/
def get_index (t : Nat) : List Nat → Nat
  | [] => 0
  | h :: tl => if h = t then 0 else get_index t tl + 1

/-- `variant()` / `variant(nullvar_t)`: tag is `invalid_index`, the fresh
storage region holds no live object. -/
def defaultVariant (n : Nat) : Variant :=
  { storage := none, which_ := n }

/-- `variant(T &&val)` for an alternative at position `i`: placement-construct
the value into storage (`emplace<t>(storage_, forward(val))`, which may
throw, in which case no variant is produced) and set `which_ = i`. -/
def constructFromValue (i : Nat) (ctor : Option Nat) : Option Variant :=
  ctor.map (fun val => { storage := some (i, val), which_ := i })

/-- `operator=(nullvar_t)` (variant.hpp lines 109-115), also the destructor's
body: when the tag is valid, end the held object's lifetime (via the destroy
visitor on a non-trivial set, or by mere abandonment of the trivially
destructible object); then set the tag to `invalid_index`. -/
def opAssignNull (n : Nat) (v : Variant) : Variant :=
  { storage := if v.which_ = n then v.storage else none, which_ := n }

/-- Free `emplace<T>(var, args...)` (variant.hpp lines 358-378), the central
algorithm.  `trivialAll` = `variant::trivial::value`; `i` = the target
alternative's index; `assignable` = whether the first `assign` overload
(direct assignment from the arguments) is selected; `mayThrow` =
`!noexcept(T(args...))`; `moveNothrow` =
`std::is_nothrow_move_constructible<T>`; `ctor` = constructing `T` from the
arguments (`none` = that construction, or the assignment in the same-index
branch, throws); `junk` = the indeterminate value left in a trivial storage
region by a constructor that threw mid-construction (for trivial
alternatives every byte pattern is a value of the type). -/
def emplaceV (trivialAll : Bool) (n i : Nat) (assignable mayThrow moveNothrow : Bool)
    (ctor : Option Nat) (junk : Nat) (v : Variant) : OpResult :=
  if trivialAll = true ∨ v.which_ = n then
    -- just create new one, nothing to destroy: emplace<t>(var.storage_, args...)
    match ctor with
    | none =>
        { ok := false,
          state := { storage := if v.which_ = n then none else some (v.which_, junk),
                     which_ := v.which_ },
          events := [] }
    | some val => { ok := true, state := { storage := some (i, val), which_ := i }, events := [] }
  else if i = v.which_ then
    -- assign new value: var.assign<t>(args...)
    match ctor with
    | none => { ok := false, state := v, events := [] }
    | some val =>
        if assignable = true then
          -- get<T>(*this) = forward(u)
          { ok := true, state := { storage := some (i, val), which_ := i }, events := [] }
        else
          -- get<T>(*this) = T(forward(args)...)
          { ok := true, state := { storage := some (i, val), which_ := i }, events := [] }
  else if mayThrow = true ∧ moveNothrow = true then
    -- emplace_impl(std::true_type): T tmp(args...); *this = nullvar; emplace(storage_, move(tmp))
    match ctor with
    | none => { ok := false, state := v, events := [] }
    | some val =>
        { ok := true, state := { storage := some (i, val), which_ := i },
          events := [Event.destroy v.which_] }
  else
    -- emplace_impl(std::false_type): *this = nullvar; emplace(storage_, args...)
    match ctor with
    | none => { ok := false, state := opAssignNull n v, events := [Event.destroy v.which_] }
    | some val =>
        { ok := true, state := { storage := some (i, val), which_ := i },
          events := [Event.destroy v.which_] }

/-- `variant::construct(std::true_type, other)` (variant.hpp lines 255-260),
the all-trivial fast path of copy/move construction: bytewise copy of
storage and tag. -/
def constructTrivial (other : Variant) : Variant :=
  { storage := other.storage, which_ := other.which_ }

/-- `variant::construct(std::false_type, other)` (variant.hpp lines 262-273),
the generic path of copy/move construction, with undefined behavior made
explicit: a `none` result means the C++ execution has undefined behavior
and no resulting variant exists.
When `construct` is reached from the copy/move constructor (variant.hpp
lines 67-78), the `which_` member of `*this` is still uninitialized;
`junkW` is its indeterminate value.  An empty source runs `*this = nullvar`
(variant.hpp lines 109-115), whose guard `!trivial::value && *this`
short-circuits on an all-trivial set; on a non-trivial set it reads the
indeterminate tag (already formally indeterminate; modelled by its wobbly
value `junkW`): a junk tag equal to `invalid_index` skips the destroy
dispatch and the tag is then set to `invalid_index`, while any other junk
value makes `variant_visit` dispatch `variant_destroy_visitor` against the
dead storage region (junk tag below the sentinel: destructor call where no
live object exists; junk tag above it: out-of-bounds read of the dispatch
table) — undefined behavior, `none`.  A non-empty source never reads the
junk tag: its value is visit-emplaced into `storage_` and the tag copied. -/
def constructNT (trivialAll : Bool) (n junkW : Nat) (other : Variant) : Option Variant :=
  if other.which_ = n then
    if trivialAll = true ∨ junkW = n then some { storage := none, which_ := n }
    else none
  else
    some { storage := some (other.which_, heldVal other), which_ := other.which_ }

/-- `operator=(const variant&)` / `operator=(variant&&)` on the all-trivial
fast path: `construct(std::true_type, other)`, a bytewise copy. -/
def opAssignVarTrivial (_tgt src : Variant) : Variant :=
  { storage := src.storage, which_ := src.which_ }

/-- `operator=(const variant&)` / `operator=(variant&&)` on the generic path
(variant.hpp lines 88-106): `visit(move(other), variant_emplace_visitor(*this))`.
`variant_visit` returns without dispatching when the source is empty
(variant_helper.hpp lines 91-92); otherwise the visitor calls the free
`emplace` with the source's held type and value.  `copyThrows i` models
whether copying/moving a value of alternative `i` throws. -/
def opAssignVarNT (trivialAll : Bool) (n : Nat)
    (assignable mayThrow moveNothrow copyThrows : Nat → Bool)
    (junk : Nat) (tgt src : Variant) : OpResult :=
  if src.which_ = n then
    { ok := true, state := tgt, events := [] }
  else
    emplaceV trivialAll n src.which_ (assignable src.which_) (mayThrow src.which_)
      (moveNothrow src.which_)
      (if copyThrows src.which_ = true then none else some (heldVal src)) junk tgt

/- The friend `swap(variant&, variant&)` (variant.hpp lines 133-160) is
deliberately not modelled: its one-empty branches call
`b.construct(std::move(a))` (line 151) and `a.construct(std::move(b))`
(line 156) with a single argument, but the only `construct` overloads
(variant.hpp lines 255-273) take a tag (`std::true_type` /
`std::false_type`) plus the variant.  Since `trivial::value` is an ordinary
runtime condition, every instantiation of `swap` compiles both arms, so any
call to `swap` is ill-formed — on the bytewise path as well as on the
generic path the program has no swap behavior to embed. -/

/-- `operator==(const variant&, const variant&)` (variant.hpp lines 180-191):
both empty → equal; same tag → `variant_compare_visitor` dispatched on `b`
computes `get<T>(a) == b_value` with `T` the held alternative; different
tags → not equal.  `beq i` is alternative `i`'s own `operator==`. -/
def eqV (n : Nat) (beq : Nat → Nat → Nat → Bool) (a b : Variant) : Bool :=
  if a.which_ = n ∧ b.which_ = n then true
  else if a.which_ = b.which_ then beq b.which_ (heldVal a) (heldVal b)
  else false

/-- `std::hash<variant>::operator()` (variant.hpp lines 468-475): an empty
variant hashes to the magic value 19937; otherwise `variant_hash_visitor`
dispatches the held alternative's own `std::hash`.  `altHash i` is
alternative `i`'s own hash function. -/
def hashV (n : Nat) (altHash : Nat → Nat → Nat) (v : Variant) : Nat :=
  if v.which_ = n then 19937
  else altHash v.which_ (heldVal v)

/-! Helper lemmas about the invariant and the state representation. -/

theorem Variant.eta (v : Variant) :
    ({ storage := v.storage, which_ := v.which_ } : Variant) = v := rfl

theorem Inv.which_le {n : Nat} {v : Variant} (hv : Inv n v) : v.which_ ≤ n := by
  rcases hv with ⟨hw, _⟩ | ⟨hlt, _⟩
  · exact Nat.le_of_eq hw
  · exact Nat.le_of_lt hlt

theorem Inv.which_lt {n : Nat} {v : Variant} (hv : Inv n v) (hne : v.which_ ≠ n) :
    v.which_ < n := by
  rcases hv with ⟨hw, _⟩ | ⟨hlt, _⟩
  · exact absurd hw hne
  · exact hlt

theorem Inv.storage_eq {n : Nat} {v : Variant} (hv : Inv n v) (hne : v.which_ ≠ n) :
    v.storage = some (v.which_, heldVal v) := by
  rcases hv with ⟨hw, _⟩ | ⟨_, hst⟩
  · exact absurd hw hne
  · exact hst

theorem Inv.empty_eq {n : Nat} {v : Variant} (hv : Inv n v) (he : v.which_ = n) :
    v = defaultVariant n := by
  rcases hv with ⟨_, hst⟩ | ⟨hlt, _⟩
  · calc v = { storage := v.storage, which_ := v.which_ } := rfl
      _ = defaultVariant n := by rw [hst, he]; rfl
  · exact absurd he (Nat.ne_of_lt hlt)

theorem Inv.nonempty_eq {n : Nat} {v : Variant} (hv : Inv n v) (hne : v.which_ ≠ n) :
    v = { storage := some (v.which_, heldVal v), which_ := v.which_ } := by
  calc v = { storage := v.storage, which_ := v.which_ } := rfl
    _ = _ := by rw [hv.storage_eq hne]

theorem heldVal_mk (i val w : Nat) :
    heldVal { storage := some (i, val), which_ := w } = val := rfl

/-! Invariant preservation, one lemma per modelled operation. -/

theorem inv_defaultVariant (n : Nat) : Inv n (defaultVariant n) :=
  Or.inl ⟨rfl, rfl⟩

theorem inv_constructFromValue (n i : Nat) (ctor : Option Nat) (hi : i < n) (w : Variant)
    (hw : constructFromValue i ctor = some w) : Inv n w := by
  cases ctor with
  | none => simp [constructFromValue] at hw
  | some val =>
    simp [constructFromValue] at hw
    exact hw ▸ Or.inr ⟨hi, rfl⟩

theorem inv_opAssignNull (n : Nat) (v : Variant) (hv : Inv n v) :
    Inv n (opAssignNull n v) := by
  unfold opAssignNull
  by_cases h : v.which_ = n
  · rcases hv with ⟨_, hst⟩ | ⟨hlt, _⟩
    · exact Or.inl ⟨rfl, by simp [h, hst]⟩
    · exact absurd h (Nat.ne_of_lt hlt)
  · exact Or.inl ⟨rfl, by simp [h]⟩

theorem inv_constructTrivial (n : Nat) (v : Variant) (hv : Inv n v) :
    Inv n (constructTrivial v) := by
  unfold constructTrivial
  rw [Variant.eta]
  exact hv

theorem inv_constructNT (trivialAll : Bool) (n junkW : Nat) (v w : Variant) (hv : Inv n v)
    (hw : constructNT trivialAll n junkW v = some w) : Inv n w := by
  unfold constructNT at hw
  by_cases h : v.which_ = n
  · rw [if_pos h] at hw
    by_cases h2 : trivialAll = true ∨ junkW = n
    · rw [if_pos h2] at hw
      exact (Option.some.inj hw) ▸ Or.inl ⟨rfl, rfl⟩
    · rw [if_neg h2] at hw
      exact Option.noConfusion hw
  · rw [if_neg h] at hw
    exact (Option.some.inj hw) ▸ Or.inr ⟨hv.which_lt h, rfl⟩

/-! Branch equations for `emplaceV`, one per reachable path of the free
`emplace` (variant.hpp lines 358-378). -/

/-- Branch 1, success: trivial set or empty variant, construct directly. -/
theorem emplaceV_fresh_ok (trivialAll : Bool) (n i : Nat) (asg mt mn : Bool)
    (val junk : Nat) (v : Variant) (h : trivialAll = true ∨ v.which_ = n) :
    emplaceV trivialAll n i asg mt mn (some val) junk v =
      { ok := true, state := { storage := some (i, val), which_ := i }, events := [] } := by
  unfold emplaceV
  rw [if_pos h]

/-- Branch 1, the constructor throws: the tag is untouched; a trivial region
keeps (indeterminate) bytes, an empty one stays empty. -/
theorem emplaceV_fresh_throw (trivialAll : Bool) (n i : Nat) (asg mt mn : Bool)
    (junk : Nat) (v : Variant) (h : trivialAll = true ∨ v.which_ = n) :
    emplaceV trivialAll n i asg mt mn none junk v =
      { ok := false,
        state := { storage := if v.which_ = n then none else some (v.which_, junk),
                   which_ := v.which_ },
        events := [] } := by
  unfold emplaceV
  rw [if_pos h]

/-- Branch 2, success: same alternative already held, assign in place;
no destructor runs, whichever `assign` overload is selected. -/
theorem emplaceV_same_ok (n i : Nat) (asg mt mn : Bool) (val junk : Nat) (v : Variant)
    (h1 : v.which_ ≠ n) (h2 : i = v.which_) :
    emplaceV false n i asg mt mn (some val) junk v =
      { ok := true, state := { storage := some (i, val), which_ := i }, events := [] } := by
  unfold emplaceV
  have hc1 : ¬(false = true ∨ v.which_ = n) := by simp [h1]
  rw [if_neg hc1, if_pos h2]
  simp only [ite_self]

/-- Branch 2, the assignment throws: the variant is untouched (the held
object stays in whatever valid state its own assignment left it in,
modelled as the previous value). -/
theorem emplaceV_same_throw (n i : Nat) (asg mt mn : Bool) (junk : Nat) (v : Variant)
    (h1 : v.which_ ≠ n) (h2 : i = v.which_) :
    emplaceV false n i asg mt mn none junk v = { ok := false, state := v, events := [] } := by
  unfold emplaceV
  have hc1 : ¬(false = true ∨ v.which_ = n) := by simp [h1]
  rw [if_neg hc1, if_pos h2]

/-- Branch 3, success: a different alternative is held; with either
`emplace_impl`, the old object is destroyed and the new value ends up in
storage with the updated tag. -/
theorem emplaceV_diff_ok (n i : Nat) (asg mt mn : Bool) (val junk : Nat) (v : Variant)
    (h1 : v.which_ ≠ n) (h2 : i ≠ v.which_) :
    emplaceV false n i asg mt mn (some val) junk v =
      { ok := true, state := { storage := some (i, val), which_ := i },
        events := [Event.destroy v.which_] } := by
  unfold emplaceV
  have hc1 : ¬(false = true ∨ v.which_ = n) := by simp [h1]
  rw [if_neg hc1, if_neg h2]
  by_cases h3 : mt = true ∧ mn = true
  · rw [if_pos h3]
  · rw [if_neg h3]

/-- Branch 3 via `emplace_impl(std::true_type)` (throwing constructor but
non-throwing move), the temporary's construction throws: nothing was
mutated yet, the variant is exactly as before. -/
theorem emplaceV_diff_strong_throw (n i : Nat) (asg mt mn : Bool) (junk : Nat) (v : Variant)
    (h1 : v.which_ ≠ n) (h2 : i ≠ v.which_) (h3 : mt = true) (h4 : mn = true) :
    emplaceV false n i asg mt mn none junk v = { ok := false, state := v, events := [] } := by
  unfold emplaceV
  have hc1 : ¬(false = true ∨ v.which_ = n) := by simp [h1]
  rw [if_neg hc1, if_neg h2, if_pos ⟨h3, h4⟩]

/-- Branch 3 via `emplace_impl(std::false_type)`, the construction throws:
the old object was already destroyed, the variant is left empty. -/
theorem emplaceV_diff_basic_throw (n i : Nat) (asg mt mn : Bool) (junk : Nat) (v : Variant)
    (h1 : v.which_ ≠ n) (h2 : i ≠ v.which_) (h3 : ¬(mt = true ∧ mn = true)) :
    emplaceV false n i asg mt mn none junk v =
      { ok := false, state := opAssignNull n v, events := [Event.destroy v.which_] } := by
  unfold emplaceV
  have hc1 : ¬(false = true ∨ v.which_ = n) := by simp [h1]
  rw [if_neg hc1, if_neg h2, if_neg h3]

theorem inv_emplaceV (trivialAll : Bool) (n i : Nat) (asg mt mn : Bool) (ctor : Option Nat)
    (junk : Nat) (v : Variant) (hv : Inv n v) (hi : i < n) :
    Inv n (emplaceV trivialAll n i asg mt mn ctor junk v).state := by
  by_cases h1 : trivialAll = true ∨ v.which_ = n
  · cases ctor with
    | none =>
      rw [emplaceV_fresh_throw trivialAll n i asg mt mn junk v h1]
      by_cases h2 : v.which_ = n
      · rw [if_pos h2]
        exact Or.inl ⟨h2, rfl⟩
      · rw [if_neg h2]
        exact Or.inr ⟨hv.which_lt h2, rfl⟩
    | some val =>
      rw [emplaceV_fresh_ok trivialAll n i asg mt mn val junk v h1]
      exact Or.inr ⟨hi, rfl⟩
  · have htr : trivialAll = false := by
      cases trivialAll
      · rfl
      · exact absurd (Or.inl rfl) h1
    have hne : v.which_ ≠ n := fun h => h1 (Or.inr h)
    subst htr
    by_cases h2 : i = v.which_
    · cases ctor with
      | none => rw [emplaceV_same_throw n i asg mt mn junk v hne h2]; exact hv
      | some val =>
        rw [emplaceV_same_ok n i asg mt mn val junk v hne h2]
        exact Or.inr ⟨hi, rfl⟩
    · cases ctor with
      | none =>
        by_cases h3 : mt = true ∧ mn = true
        · rw [emplaceV_diff_strong_throw n i asg mt mn junk v hne h2 h3.1 h3.2]
          exact hv
        · rw [emplaceV_diff_basic_throw n i asg mt mn junk v hne h2 h3]
          exact inv_opAssignNull n v hv
      | some val =>
        rw [emplaceV_diff_ok n i asg mt mn val junk v hne h2]
        exact Or.inr ⟨hi, rfl⟩

theorem inv_opAssignVarNT (trivialAll : Bool) (n : Nat)
    (asg mt mn cth : Nat → Bool) (junk : Nat) (tgt src : Variant)
    (ht : Inv n tgt) (hs : Inv n src) :
    Inv n (opAssignVarNT trivialAll n asg mt mn cth junk tgt src).state := by
  unfold opAssignVarNT
  by_cases h : src.which_ = n
  · simpa [h] using ht
  · simp only [h, if_false]
    exact inv_emplaceV _ n _ _ _ _ _ junk tgt ht (hs.which_lt h)

theorem inv_opAssignVarTrivial (n : Nat) (tgt src : Variant) (hs : Inv n src) :
    Inv n (opAssignVarTrivial tgt src) := by
  unfold opAssignVarTrivial
  rw [Variant.eta]
  exact hs

/-! The claims. -/

/-- C1: on a non-trivial variant holding some alternative, `emplace` targeting
a different alternative whose selected constructor may throw
(`mayThrow = true`) and whose move constructor cannot throw
(`moveNothrow = true`) builds the temporary first; if that construction
throws, the exception propagates with the variant exactly as before — same
tag, same held value, and no destructor was run (strong exception safety). -/
theorem C1_emplace_strong_safety (n i junk : Nat) (assignable : Bool) (v : Variant)
    (hv : Inv n v) (hne : v.which_ ≠ n) (hdiff : i ≠ v.which_) :
    emplaceV false n i assignable true true none junk v =
      { ok := false, state := v, events := [] } ∧
    v.storage = some (v.which_, heldVal v) :=
  ⟨emplaceV_diff_strong_throw n i assignable true true junk v hne hdiff rfl rfl,
   hv.storage_eq hne⟩

theorem C1_emplace_strong_safety_witness :
    emplaceV false 2 1 true true true none 0 { storage := some (0, 7), which_ := 0 } =
      { ok := false, state := { storage := some (0, 7), which_ := 0 }, events := [] } ∧
    ({ storage := some (0, 7), which_ := 0 } : Variant).storage = some (0, 7) :=
  C1_emplace_strong_safety 2 1 0 true { storage := some (0, 7), which_ := 0 }
    (by decide) (by decide) (by decide)

/-- C2 (code-bug evidence): evaluating the non-trivial copy-construction
path at the failing input.  From an Empty source over a non-trivial set
(n = 2), with the fresh object's uninitialized `which_` holding the
indeterminate value 0, the execution is undefined (the destroy visitor is
dispatched against dead storage), so the claim's guaranteed Empty result
does not exist; by contrast, a source holding alternative 1 with value 9 is
mirrored correctly, showing the defect is confined to the Empty-source
case. -/
theorem C2_copy_construct_empty_source_ub :
    constructNT false 2 0 { storage := none, which_ := 2 } = none ∧
    constructNT false 2 0 { storage := some (1, 9), which_ := 1 } =
      some { storage := some (1, 9), which_ := 1 } := by
  decide

/-- C3: on the non-trivial path, copy/move-assigning an Empty source variant
is dispatched through `visit`, which does nothing for an empty source: the
target keeps its previous state (it is not made Empty) and no destructor
runs. -/
theorem C3_assign_empty_source_noop (n junk : Nat)
    (assignable mayThrow moveNothrow copyThrows : Nat → Bool) (tgt src : Variant)
    (hsrc : src.which_ = n) (htgt : tgt.which_ ≠ n) :
    opAssignVarNT false n assignable mayThrow moveNothrow copyThrows junk tgt src =
      { ok := true, state := tgt, events := [] } ∧
    (opAssignVarNT false n assignable mayThrow moveNothrow copyThrows junk tgt src).state.which_
      ≠ n := by
  have h : opAssignVarNT false n assignable mayThrow moveNothrow copyThrows junk tgt src =
      { ok := true, state := tgt, events := [] } := by
    unfold opAssignVarNT
    rw [if_pos hsrc]
  exact ⟨h, by rw [h]; exact htgt⟩

theorem C3_assign_empty_source_witness :
    opAssignVarNT false 2 (fun _ => false) (fun _ => false) (fun _ => false) (fun _ => false) 0
        { storage := some (0, 4), which_ := 0 } { storage := none, which_ := 2 } =
      { ok := true, state := { storage := some (0, 4), which_ := 0 }, events := [] } :=
  (C3_assign_empty_source_noop 2 0 (fun _ => false) (fun _ => false) (fun _ => false)
    (fun _ => false) { storage := some (0, 4), which_ := 0 } { storage := none, which_ := 2 }
    rfl (by decide)).1

/-- C4 counterexample: the claim quantifies over every variant operation,
but non-trivial copy/move construction from an Empty source (here over
n = 2 with the fresh object's indeterminate tag being 1) has undefined
behavior — a destructor dispatched against dead storage — so no resulting
variant exists, let alone one satisfying the invariant. -/
theorem C4_invariant_counterexample :
    ¬ ∃ w, constructNT false 2 1 { storage := none, which_ := 2 } = some w ∧ Inv 2 w := by
  rintro ⟨w, hw, -⟩
  have h : constructNT false 2 1 { storage := none, which_ := 2 } = none := by decide
  rw [h] at hw
  exact Option.noConfusion hw

/-- C4 (amended): every modelled variant operation with defined behavior —
default construction, construction from a value, copy/move construction on
either path on every execution that is not undefined (an Empty non-trivial
source with an indeterminate fresh tag other than the sentinel has no
defined result), copy/move assignment on either path, null assignment /
destruction, and emplace including all its exception paths — preserves the
invariant: the tag is in `[0, n]`, it is `n` exactly when no live object is
held, and a tag `i < n` means exactly one live object of alternative `i`.
`swap` is excluded: the source's swap is ill-formed whenever instantiated
(variant.hpp lines 151 and 156), so there is no swap behavior to preserve
anything. -/
theorem C4_operations_preserve_invariant (n : Nat) :
    Inv n (defaultVariant n) ∧
    (∀ i ctor w, i < n → constructFromValue i ctor = some w → Inv n w) ∧
    (∀ v, Inv n v → Inv n (constructTrivial v)) ∧
    (∀ trivialAll junkW v w, Inv n v → constructNT trivialAll n junkW v = some w →
      Inv n w) ∧
    (∀ trivialAll asg mt mn cth junk tgt src, Inv n tgt → Inv n src →
      Inv n (opAssignVarNT trivialAll n asg mt mn cth junk tgt src).state) ∧
    (∀ tgt src, Inv n src → Inv n (opAssignVarTrivial tgt src)) ∧
    (∀ v, Inv n v → Inv n (opAssignNull n v)) ∧
    (∀ trivialAll i asg mt mn ctor junk v, Inv n v → i < n →
      Inv n (emplaceV trivialAll n i asg mt mn ctor junk v).state) :=
  ⟨inv_defaultVariant n,
   fun i ctor w hi hw => inv_constructFromValue n i ctor hi w hw,
   fun v hv => inv_constructTrivial n v hv,
   fun trivialAll junkW v w hv hw => inv_constructNT trivialAll n junkW v w hv hw,
   fun trivialAll asg mt mn cth junk tgt src ht hs =>
     inv_opAssignVarNT trivialAll n asg mt mn cth junk tgt src ht hs,
   fun tgt src hs => inv_opAssignVarTrivial n tgt src hs,
   fun v hv => inv_opAssignNull n v hv,
   fun trivialAll i asg mt mn ctor junk v hv hi =>
     inv_emplaceV trivialAll n i asg mt mn ctor junk v hv hi⟩

theorem C4_operations_witness :
    Inv 2 (defaultVariant 2) ∧
    Inv 2 (opAssignNull 2 { storage := some (0, 3), which_ := 0 }) ∧
    Inv 2 (emplaceV false 2 1 true true true (some 9) 0
      { storage := some (0, 3), which_ := 0 }).state := by
  have h := C4_operations_preserve_invariant 2
  exact ⟨h.1, h.2.2.2.2.2.2.1 _ (by decide),
    h.2.2.2.2.2.2.2 false 1 true true true (some 9) 0 _ (by decide) (by decide)⟩

/-- C5: two variants compare equal exactly when both are Empty, or both hold
the same alternative index and that alternative's own equality accepts the
two held values; variants holding different indices never compare equal. -/
theorem C5_equality_characterization (n : Nat) (beq : Nat → Nat → Nat → Bool)
    (a b : Variant) (ha : Inv n a) (hb : Inv n b) :
    (eqV n beq a b = true ↔
      (a.which_ = n ∧ b.which_ = n) ∨
      (a.which_ = b.which_ ∧ a.which_ < n ∧ beq a.which_ (heldVal a) (heldVal b) = true)) ∧
    (a.which_ ≠ b.which_ → eqV n beq a b = false) := by
  unfold eqV
  by_cases h1 : a.which_ = n ∧ b.which_ = n
  · rw [if_pos h1]
    constructor
    · constructor
      · intro _
        exact Or.inl h1
      · intro _
        rfl
    · intro hne
      exact absurd (h1.1.trans h1.2.symm) hne
  · rw [if_neg h1]
    by_cases h2 : a.which_ = b.which_
    · rw [if_pos h2]
      have hanen : a.which_ ≠ n := fun he => h1 ⟨he, h2.symm.trans he⟩
      have hlt : a.which_ < n := ha.which_lt hanen
      constructor
      · constructor
        · intro hbeq
          refine Or.inr ⟨h2, hlt, ?_⟩
          rw [h2]
          exact hbeq
        · rintro (hOr | ⟨_, _, hbeq⟩)
          · exact absurd hOr h1
          · rw [h2] at hbeq
            exact hbeq
      · intro hne
        exact absurd h2 hne
    · rw [if_neg h2]
      constructor
      · constructor
        · intro hf
          exact absurd hf (by simp)
        · rintro (⟨ha1, hb1⟩ | ⟨heq, _, _⟩)
          · exact absurd (ha1.trans hb1.symm) h2
          · exact absurd heq h2
      · intro _
        rfl

theorem C5_equality_witness :
    eqV 2 (fun _ x y => x == y) { storage := some (1, 5), which_ := 1 }
      { storage := some (1, 5), which_ := 1 } = true ∧
    eqV 2 (fun _ x y => x == y) { storage := some (0, 5), which_ := 0 }
      { storage := some (1, 5), which_ := 1 } = false :=
  ⟨((C5_equality_characterization 2 (fun _ x y => x == y)
      { storage := some (1, 5), which_ := 1 } { storage := some (1, 5), which_ := 1 }
      (by decide) (by decide)).1).mpr (Or.inr ⟨rfl, by decide, by decide⟩),
   (C5_equality_characterization 2 (fun _ x y => x == y)
      { storage := some (0, 5), which_ := 0 } { storage := some (1, 5), which_ := 1 }
      (by decide) (by decide)).2 (by decide)⟩

/-- C7: `emplace` on a non-trivial variant already holding the target
alternative updates the held value in place (through either `assign`
overload), runs no destructor, and leaves the tag at that same index. -/
theorem C7_emplace_same_alternative_in_place (n i junk val : Nat) (assignable mt mn : Bool)
    (v : Variant) (hne : v.which_ ≠ n) (hi : i = v.which_) :
    emplaceV false n i assignable mt mn (some val) junk v =
      { ok := true, state := { storage := some (i, val), which_ := i }, events := [] } :=
  emplaceV_same_ok n i assignable mt mn val junk v hne hi

theorem C7_emplace_same_alternative_witness :
    emplaceV false 3 2 true false false (some 9) 0 { storage := some (2, 4), which_ := 2 } =
      { ok := true, state := { storage := some (2, 9), which_ := 2 }, events := [] } :=
  C7_emplace_same_alternative_in_place 3 2 0 9 true false false
    { storage := some (2, 4), which_ := 2 } (by decide) rfl

/-- C9: an Empty variant hashes to the fixed sentinel 19937 for every
alternative set; a non-empty variant hashes to the held alternative's own
hash of the held value. -/
theorem C9_hash_sentinel_and_dispatch (n : Nat) (altHash : Nat → Nat → Nat) (v : Variant) :
    (v.which_ = n → hashV n altHash v = 19937) ∧
    (∀ i val, v.which_ = i → i ≠ n → v.storage = some (i, val) →
      hashV n altHash v = altHash i val) := by
  constructor
  · intro h
    unfold hashV
    rw [if_pos h]
  · intro i val hw hne hst
    have hvn : v.which_ ≠ n := by
      rw [hw]
      exact hne
    unfold hashV
    rw [if_neg hvn, hw]
    unfold heldVal
    rw [hst]
    rfl

theorem C9_hash_witness :
    hashV 2 (fun i v => i * 100 + v) { storage := none, which_ := 2 } = 19937 ∧
    hashV 2 (fun i v => i * 100 + v) { storage := some (1, 5), which_ := 1 } = 105 :=
  ⟨(C9_hash_sentinel_and_dispatch 2 (fun i v => i * 100 + v)
      { storage := none, which_ := 2 }).1 rfl,
   (C9_hash_sentinel_and_dispatch 2 (fun i v => i * 100 + v)
      { storage := some (1, 5), which_ := 1 }).2 1 5 rfl (by decide) rfl⟩

/-- C10: `get_index` returns the position of the first occurrence of the
type in the alternative list (so duplicates resolve to the earliest
position), and the sentinel `length` (the invalid/empty index) when the
type does not occur. -/
theorem C10_get_index_first_occurrence (t : Nat) (l : List Nat) :
    (t ∉ l → get_index t l = l.length) ∧
    (t ∈ l → get_index t l < l.length ∧ l.get? (get_index t l) = some t ∧
      ∀ j, j < get_index t l → l.get? j ≠ some t) := by
  induction l with
  | nil =>
    constructor
    · intro _
      rfl
    · intro h
      simp at h
  | cons hd tl ih =>
    by_cases he : hd = t
    · constructor
      · intro hn
        exact absurd (he ▸ List.mem_cons_self hd tl) hn
      · intro _
        unfold get_index
        rw [if_pos he]
        refine ⟨Nat.succ_pos _, by simp [he], ?_⟩
        intro j hj
        exact absurd hj (Nat.not_lt_zero j)
    · have hgi : get_index t (hd :: tl) = get_index t tl + 1 := by
        show (if hd = t then 0 else get_index t tl + 1) = get_index t tl + 1
        rw [if_neg he]
      constructor
      · intro hn
        have hnt : t ∉ tl := fun m => hn (List.mem_cons_of_mem hd m)
        rw [hgi, ih.1 hnt]
        rfl
      · intro hm
        have hmt : t ∈ tl := by
          rcases List.mem_cons.mp hm with h | h
          · exact absurd h.symm he
          · exact h
        obtain ⟨hlt, hget, hmin⟩ := ih.2 hmt
        rw [hgi]
        refine ⟨Nat.succ_lt_succ hlt, by simpa using hget, ?_⟩
        intro j hj
        cases j with
        | zero => simp [he]
        | succ j' =>
          intro hc
          have hc' : tl.get? j' = some t := by simpa using hc
          exact hmin j' (Nat.lt_of_succ_lt_succ hj) hc'

theorem C10_get_index_witness :
    ([3, 7, 7, 2].get? (get_index 7 [3, 7, 7, 2]) = some 7 ∧
      ∀ j, j < get_index 7 [3, 7, 7, 2] → [3, 7, 7, 2].get? j ≠ some 7) ∧
    get_index 9 [3, 7] = ([3, 7] : List Nat).length :=
  ⟨⟨((C10_get_index_first_occurrence 7 [3, 7, 7, 2]).2 (by decide)).2.1,
    ((C10_get_index_first_occurrence 7 [3, 7, 7, 2]).2 (by decide)).2.2⟩,
   (C10_get_index_first_occurrence 9 [3, 7]).1 (by decide)⟩

/-- C6 counterexample: over the all-trivial single-alternative set (n = 1),
assigning an Empty source into a target holding alternative 0 with value 5
gives different observable results on the two paths: the bytewise path
copies the Empty tag (target becomes Empty), while the generic
dispatch-based path is a no-op for an empty source (target keeps its
value). -/
theorem C6_cross_path_counterexample :
    Inv 1 { storage := some (0, 5), which_ := 0 } ∧
    Inv 1 { storage := none, which_ := 1 } ∧
    opAssignVarTrivial { storage := some (0, 5), which_ := 0 } { storage := none, which_ := 1 } ≠
      (opAssignVarNT true 1 (fun _ => false) (fun _ => false) (fun _ => false) (fun _ => false) 0
        { storage := some (0, 5), which_ := 0 } { storage := none, which_ := 1 }).state :=
  ⟨by decide, by decide, by decide⟩

/-- C6 amended: for an all-trivial alternative set the bytewise fast path
and the generic dispatch-based path agree observably for copy/move
construction on all invariant-respecting inputs (on a trivial set even the
Empty-source branch of the generic path is well defined, for every
indeterminate fresh tag, because the null-assignment guard short-circuits
before reading it), and for copy/move assignment whenever the source is
non-empty or the target is Empty; the remaining assignment case (Empty
source, non-empty target) is exactly the counterexample.  No equivalence is
assertable for swap: the source's swap function is ill-formed whenever
instantiated (variant.hpp lines 151 and 156), on both paths. -/
theorem C6_amended_path_equivalence (n junk : Nat) (asg mt mn : Nat → Bool) (a b : Variant)
    (ha : Inv n a) (hb : Inv n b) :
    constructNT true n junk b = some (constructTrivial b) ∧
    (b.which_ ≠ n ∨ a.which_ = n →
      opAssignVarTrivial a b =
        (opAssignVarNT true n asg mt mn (fun _ => false) junk a b).state) := by
  constructor
  · show constructNT true n junk b = some b
    by_cases hB : b.which_ = n
    · unfold constructNT
      rw [if_pos hB, if_pos (Or.inl rfl), hb.empty_eq hB]
      rfl
    · unfold constructNT
      rw [if_neg hB, ← hb.nonempty_eq hB]
  · intro hcase
    show b = (opAssignVarNT true n asg mt mn (fun _ => false) junk a b).state
    by_cases hB : b.which_ = n
    · have hA : a.which_ = n := by
        rcases hcase with h | h
        · exact absurd hB h
        · exact h
      unfold opAssignVarNT
      rw [if_pos hB]
      rw [hb.empty_eq hB, ha.empty_eq hA]
    · unfold opAssignVarNT
      rw [if_neg hB]
      have hct : (if (fun _ : Nat => false) b.which_ = true then (none : Option Nat)
          else some (heldVal b)) = some (heldVal b) := by simp
      rw [hct, emplaceV_fresh_ok true n b.which_ (asg b.which_) (mt b.which_) (mn b.which_)
        (heldVal b) junk a (Or.inl rfl)]
      exact hb.nonempty_eq hB

theorem C6_amended_witness :
    constructNT true 1 0 { storage := some (0, 5), which_ := 0 } =
      some (constructTrivial { storage := some (0, 5), which_ := 0 }) ∧
    opAssignVarTrivial { storage := none, which_ := 1 } { storage := some (0, 5), which_ := 0 } =
      (opAssignVarNT true 1 (fun _ => false) (fun _ => false) (fun _ => false) (fun _ => false) 0
        { storage := none, which_ := 1 } { storage := some (0, 5), which_ := 0 }).state := by
  have h := C6_amended_path_equivalence 1 0 (fun _ => false) (fun _ => false) (fun _ => false)
    { storage := none, which_ := 1 } { storage := some (0, 5), which_ := 0 }
    (by decide) (by decide)
  exact ⟨h.1, h.2 (Or.inl (by decide))⟩

end FStorage
